import Mathlib

/-!
Verification of the dfu-maple firmware-download examples
(`examples/download.rs`, `examples/describe.rs`) against their design
specification.  The Rust code is embedded shallowly: the pure parsers are
Lean functions over `List Char`, and the effectful session `Cli::run` is a
function from a configuration plus an environment (the recorded behaviour
of the external collaborators: libusb open attempts, the download result,
progress-callback chunk sizes, serial-port enumerations, reset outcomes)
to a session trace.
-/

deriving instance DecidableEq for Except

namespace DfuMaple

/-! ### Rust numeric string parsing (`u16::from_str_radix`, `u32::from_str_radix`, `str::parse`) -/

/-- Rust `char::to_digit(radix)`: ASCII `0-9` map to 0-9, ASCII letters map to
10-35 (case-insensitively), and the result must be below `radix`.
Scalar values: `0` = 48, `9` = 57, `a` = 97, `z` = 122, `A` = 65, `Z` = 90. -/
def charToDigit (radix : Nat) (c : Char) : Option Nat :=
  let n := c.toNat
  if 48 ≤ n ∧ n ≤ 57 then
    if n - 48 < radix then some (n - 48) else none
  else if 97 ≤ n ∧ n ≤ 122 then
    if n - 97 + 10 < radix then some (n - 97 + 10) else none
  else if 65 ≤ n ∧ n ≤ 90 then
    if n - 65 + 10 < radix then some (n - 65 + 10) else none
  else none

/-- The digit-accumulation loop of Rust `from_str_radix` for an unsigned
integer type with maximum value `max`: each step is a checked multiply by
`radix` followed by a checked add of the digit, failing on an invalid digit
or on overflow. -/
def radixDigits (radix max : Nat) : List Char → Nat → Option Nat
  | [], acc => some acc
  | c :: cs, acc =>
    match charToDigit radix c with
    | none => none
    | some d =>
      if acc * radix > max then none
      else if acc * radix + d > max then none
      else radixDigits radix max cs (acc * radix + d)

/-- Rust `from_str_radix` on an unsigned integer type with maximum value
`max`: the input may carry one leading `+` sign, the remaining digit string
must be non-empty, and the digits are folded with overflow checking.
(A `-` sign is rejected for unsigned types because `-` is not a digit.) -/
def fromStrRadix (radix max : Nat) (s : List Char) : Option Nat :=
  match s with
  | [] => none
  | c :: rest =>
    if c = '+' then
      if rest.isEmpty then none else radixDigits radix max rest 0
    else radixDigits radix max (c :: rest) 0

/-- Rust `str::split_once(sep)`: the text before and after the first
occurrence of `sep`, or `none` when `sep` does not occur. -/
def splitOnce (sep : Char) : List Char → Option (List Char × List Char)
  | [] => none
  | c :: cs =>
    if c = sep then some ([], cs)
    else
      match splitOnce sep cs with
      | none => none
      | some (a, b) => some (c :: a, b)

/-! ### The two CLI parsers (`Cli::parse_vid_pid`, `Cli::parse_address`) -/

/-- `Cli::parse_vid_pid` (download.rs lines 188-196; describe.rs lines 81-89
are textually identical): split on the first `:` and parse both halves with
`u16::from_str_radix(_, 16)`. -/
def parseVidPid (s : List Char) : Option (Nat × Nat) :=
  match splitOnce ':' s with
  | none => none
  | some (a, b) =>
    match fromStrRadix 16 65535 a with
    | none => none
    | some vid =>
      match fromStrRadix 16 65535 b with
      | none => none
      | some pid => some (vid, pid)

/-- Rust `u8::to_ascii_lowercase` at the scalar level: ASCII `A`-`Z`
(65-90) shift up by 32, everything else is unchanged. -/
def toAsciiLowerNat (n : Nat) : Nat :=
  if 65 ≤ n ∧ n ≤ 90 then n + 32 else n

/-- The test `s.to_ascii_lowercase().starts_with("0x")` of
`Cli::parse_address`: the first two bytes, lowercased, are `0` (48) and
`x` (120). -/
def starts0x (l : List Char) : Bool :=
  match l with
  | c0 :: c1 :: _ =>
    decide (toAsciiLowerNat c0.toNat = 48 ∧ toAsciiLowerNat c1.toNat = 120)
  | _ => false

/-- `Cli::parse_address` (download.rs lines 198-204): with a
case-insensitive `0x` prefix the rest of the input is parsed as 32-bit hex
(`u32::from_str_radix(&s[2..], 16)`), otherwise the whole input is parsed
as 32-bit decimal (`s.parse::<u32>()`). -/
def parseAddress (l : List Char) : Option Nat :=
  if starts0x l then fromStrRadix 16 4294967295 (l.drop 2)
  else fromStrRadix 10 4294967295 l

/-- String-level wrapper of `parseVidPid`. -/
def parseVidPidS (s : String) : Option (Nat × Nat) := parseVidPid s.data

/-- String-level wrapper of `parseAddress`. -/
def parseAddressS (s : String) : Option Nat := parseAddress s.data

/-! ### Spec-side numerals ("hexadecimal numeral", "decimal numeral")

These definitions follow the specification's words, to be compared with
the Rust parsers above: a numeral is a non-empty string of digits of the
base, with no sign. -/

/-- Specification-side: a hexadecimal digit (`0-9`, `a-f`, `A-F`). -/
def specIsHexDigit (c : Char) : Bool :=
  decide ((48 ≤ c.toNat ∧ c.toNat ≤ 57) ∨ (97 ≤ c.toNat ∧ c.toNat ≤ 102)
    ∨ (65 ≤ c.toNat ∧ c.toNat ≤ 70))

/-- Specification-side: the value of a hexadecimal digit. -/
def specHexDigitVal (c : Char) : Nat :=
  if c.toNat ≤ 57 then c.toNat - 48
  else if c.toNat ≤ 70 then c.toNat - 55
  else c.toNat - 87

/-- Specification-side: a decimal digit (`0-9`). -/
def specIsDecDigit (c : Char) : Bool :=
  decide (48 ≤ c.toNat ∧ c.toNat ≤ 57)

/-- Specification-side: a hexadecimal numeral is a non-empty string of
hexadecimal digits. -/
def specIsHexNumeral (l : List Char) : Bool :=
  !l.isEmpty && l.all specIsHexDigit

/-- Specification-side: a decimal numeral is a non-empty string of decimal
digits. -/
def specIsDecNumeral (l : List Char) : Bool :=
  !l.isEmpty && l.all specIsDecDigit

/-- Specification-side: the value of a hexadecimal numeral. -/
def specHexVal (l : List Char) : Nat :=
  l.foldl (fun a c => a * 16 + specHexDigitVal c) 0

/-- Specification-side: the value of a decimal numeral. -/
def specDecVal (l : List Char) : Nat :=
  l.foldl (fun a c => a * 10 + (c.toNat - 48)) 0

/-- Drop one leading `+` sign, as Rust's unsigned `from_str_radix` does. -/
def stripPlus (l : List Char) : List Char :=
  match l with
  | [] => []
  | c :: r => if c = '+' then r else l

/-- A string Rust accepts as 16-bit hex: an optional leading `+`, then a
hexadecimal numeral of value below 2^16. -/
def specPlusHex16 (l : List Char) : Bool :=
  specIsHexNumeral (stripPlus l) && decide (specHexVal (stripPlus l) < 65536)

/-- A string Rust accepts as 32-bit hex: an optional leading `+`, then a
hexadecimal numeral of value below 2^32. -/
def specPlusHex32 (l : List Char) : Bool :=
  specIsHexNumeral (stripPlus l) && decide (specHexVal (stripPlus l) < 4294967296)

/-- A string Rust accepts as 32-bit decimal: an optional leading `+`, then
a decimal numeral of value below 2^32. -/
def specPlusDec32 (l : List Char) : Bool :=
  specIsDecNumeral (stripPlus l) && decide (specDecVal (stripPlus l) < 4294967296)

example : parseVidPidS "1EAF:0003" = some (7855, 3) := by decide
example : parseVidPidS "+1EAF:0003" = some (7855, 3) := by decide
example : parseVidPidS "1EAF0003" = none := by decide
example : parseVidPidS "1EAG:0003" = none := by decide
example : parseVidPidS "11EAF:0003" = none := by decide
example : parseAddressS "0x0800C000" = some 134266880 := by decide
example : parseAddressS "0X10" = some 16 := by decide
example : parseAddressS "0x+1" = some 1 := by decide
example : parseAddressS "4294967296" = none := by decide
example : parseAddressS "4294967295" = some 4294967295 := by decide

/-! ### The session model of `Cli::run` (download.rs lines 54-186)

The external collaborators (libusb device open, the DFU download, the
progress bar driven by `with_progress`, `reset_mcu`, `usb_reset`, and
`serialport::available_ports`) are modelled by an environment recording
the outcome each call would produce; `runSession` replays the control
flow of `Cli::run` over it. -/

/-- Result of one `DfuLibusb::open` attempt.  `couldNotOpen` is
`Err(Error::CouldNotOpenDevice)`, `otherErr` is any other error, `opened`
is `Ok`. -/
inductive OpenRes where
  | couldNotOpen
  | otherErr (msg : String)
  | opened
deriving DecidableEq

/-- Result of `device.download(file, file_size)`.  `libUsb` is
`Err(Error::LibUsb(e))` (a transport-class failure), `other` any other
error. -/
inductive DlRes where
  | ok (bytes : Nat)
  | libUsb (cause : String)
  | other (cause : String)
deriving DecidableEq

/-- The CLI inputs relevant to the session control flow. -/
structure Cfg where
  wait : Bool
  reset : Bool
  serialPort : Option String
  fileSize : Nat
deriving DecidableEq

/-- Recorded behaviour of the external collaborators for one session. -/
structure Env where
  /-- Outcome of `reset_mcu(serial_port)` if called. -/
  resetMcu : Except String Unit
  /-- Outcomes of successive `DfuLibusb::open` attempts. -/
  opens : List OpenRes
  /-- Outcome of `device.download`. -/
  dl : DlRes
  /-- Byte counts passed to the `with_progress` callback, in order. -/
  chunks : List Nat
  /-- Outcome of `device.usb_reset()` in the recovery arm (line 148). -/
  recoveryReset : Except String Unit
  /-- Outcomes of successive `serialport::available_ports()` calls;
  a missing entry behaves as a failed enumeration. -/
  polls : List (Except Unit (List String))
  /-- Outcome of `device.usb_reset()` in the `if reset` block (line 182). -/
  finalReset : Except String Unit
deriving DecidableEq

/-- Result of the session, tagging which exit of `Cli::run` was taken. -/
inductive SessionResult where
  /-- The blocking open loop is still polling past the modelled attempts. -/
  | stuckWaiting
  /-- `Err` from the open match, wrapped by `.context("could not open device")`. -/
  | fatalOpen (ctx : String) (e : OpenRes)
  /-- `Err` from the download fatal arm (line 171), wrapped by
  `.context("could not write firmware to the device")`. -/
  | fatalTransfer (ctx : String) (e : DlRes)
  /-- `device.usb_reset()?` failed in the recovery arm (line 148). -/
  | fatalRecoveryReset (cause : String)
  /-- Early `return Ok(())` at line 163: the configured serial port
  reappeared after `pollsUsed` polls. -/
  | okSerialConfirmed (pollsUsed : Nat)
  /-- `return Ok(())` at line 169 with a serial port configured but never
  seen within the poll budget. -/
  | okInconclusive
  /-- `return Ok(())` at line 169 with no serial port configured. -/
  | okRecovered
  /-- Fall-through `Ok(())` at line 185 with `reset` unset. -/
  | okPlain
  /-- Fall-through `Ok(())` at line 185 after the final `usb_reset`. -/
  | okAfterReset
  /-- `device.usb_reset()?` failed in the `if reset` block (line 182). -/
  | fatalFinalReset (cause : String)
deriving DecidableEq

/-- Observable trace of one session. -/
structure SessionTrace where
  result : SessionResult
  /-- Number of `DfuLibusb::open` probes performed. -/
  openProbes : Nat
  /-- Number of `usb_reset` calls issued. -/
  usbResets : Nat
  /-- The failure message recorded when the best-effort `reset_mcu` fails. -/
  mcuResetFailMsg : Option String
deriving DecidableEq

/-- Whether a session result is `Ok(())` (process exit code 0). -/
def exitOk : SessionResult → Bool
  | .okSerialConfirmed _ => true
  | .okInconclusive => true
  | .okRecovered => true
  | .okPlain => true
  | .okAfterReset => true
  | _ => false

/-- Whether a session result is the fatal transfer arm — the spec's
`GenuineFailure` / `TransferFailed` classification. -/
def isGenuineFailure : SessionResult → Bool
  | .fatalTransfer _ _ => true
  | _ => false

/-- The cause text carried by a download error. -/
def dlCauseText : DlRes → String
  | .ok _ => ""
  | .libUsb c => c
  | .other c => c

/-- The rendered error chain of a fatal transfer result, as anyhow
displays it: the context string, then the wrapped cause. -/
def fatalMessage : SessionResult → Option String
  | .fatalTransfer ctx e => some (ctx ++ ": " ++ dlCauseText e)
  | _ => none

/-- Whether `needle` occurs as a contiguous run inside `hay`. -/
def hasSubstr (needle : List Char) : List Char → Bool
  | [] => needle.isEmpty
  | c :: t => needle.isPrefixOf (c :: t) || hasSubstr needle t

/-- String-level substring test. -/
def strContains (needle hay : String) : Bool := hasSubstr needle.data hay.data

/-- One step of the `with_progress` closure (lines 130-138): `bar.inc(count)`,
then `bar.finish()` exactly when the position equals `file_size`.  The
state is (position, finished flag); finishing is sticky. -/
def barStep (fileSize : Nat) (st : Nat × Bool) (count : Nat) : Nat × Bool :=
  (st.1 + count, st.2 || (st.1 + count == fileSize))

/-- Whether the download progress bar is finished after the recorded
progress callbacks — the `bar.is_finished()` guard of line 146. -/
def barFinished (fileSize : Nat) (chunks : List Nat) : Bool :=
  (chunks.foldl (barStep fileSize) (0, false)).2

/-- The unbounded retry loop inside the blocking open (lines 105-114):
scan successive attempts, ticking past `CouldNotOpenDevice`, and break on
the first other result.  Returns that result and the number of attempts
consumed, or `none` when the modelled attempts are exhausted. -/
def acquireLoop : List OpenRes → Option (OpenRes × Nat)
  | [] => none
  | r :: rest =>
    match r with
    | .couldNotOpen =>
      match acquireLoop rest with
      | none => none
      | some (q, n) => some (q, n + 1)
    | q => some (q, 1)

/-- The device-acquisition match of lines 100-118: one open attempt, then
(only when the first attempt failed with `CouldNotOpenDevice` and `wait`
is set) the retry loop. -/
def acquire (wait : Bool) (opens : List OpenRes) : Option (OpenRes × Nat) :=
  match opens with
  | [] => none
  | a :: rest =>
    match a with
    | .couldNotOpen =>
      if wait then
        match acquireLoop rest with
        | none => none
        | some (q, n) => some (q, n + 1)
      else some (.couldNotOpen, 1)
    | q => some (q, 1)

/-- The poll at index `i`; a missing entry behaves as a failed
enumeration (matching the loop, which ignores `Err` from
`available_ports`). -/
def pollAt (polls : List (Except Unit (List String))) (i : Nat) :
    Except Unit (List String) :=
  polls.getD i (.error ())

/-- Outcome of the serial wait loop. -/
inductive SerialOutcome where
  | confirmed (pollsUsed : Nat)
  | exhausted
deriving DecidableEq

/-- The body test of one poll iteration (lines 158-160): the enumeration
succeeded and the collected port names contain the configured one. -/
def pollHit (port : String) (p : Except Unit (List String)) : Bool :=
  match p with
  | .ok names => decide (port ∈ names)
  | .error _ => false

/-- The serial wait loop of lines 154-166, from poll index `i` with the
given fuel: each iteration enumerates ports, and returns on the first
successful enumeration containing the configured name. -/
def serialWaitFrom (port : String) (polls : List (Except Unit (List String))) :
    Nat → Nat → SerialOutcome
  | 0, _ => .exhausted
  | fuel + 1, i =>
    if pollHit port (pollAt polls i) then .confirmed (i + 1)
    else serialWaitFrom port polls fuel (i + 1)

/-- The serial wait loop with its budget of 20 polls (`for _ in 0..20`). -/
def serialWait (port : String) (polls : List (Except Unit (List String))) :
    SerialOutcome :=
  serialWaitFrom port polls 20 0

/-- The failure message recorded by the best-effort `reset_mcu` step
(lines 73-90): only on failure, and only when a serial port is
configured. -/
def mcuMsgOf (cfg : Cfg) (env : Env) : Option String :=
  match cfg.serialPort with
  | none => none
  | some port =>
    match env.resetMcu with
    | .ok _ => none
    | .error e => some ("Failed to reset MCU at " ++ port ++ ": " ++ e)

/-- The part of `Cli::run` after a successful open (lines 144-185):
the download match, the recovery arm with its `usb_reset` and optional
serial wait, and the `if reset` final `usb_reset`.  Returns the session
result and the number of `usb_reset` calls issued. -/
def afterOpen (cfg : Cfg) (env : Env) : SessionResult × Nat :=
  match env.dl with
  | .ok _ =>
    if cfg.reset then
      match env.finalReset with
      | .ok _ => (.okAfterReset, 1)
      | .error e => (.fatalFinalReset e, 1)
    else (.okPlain, 0)
  | .libUsb c =>
    if barFinished cfg.fileSize env.chunks then
      match env.recoveryReset with
      | .error e => (.fatalRecoveryReset e, 1)
      | .ok _ =>
        match cfg.serialPort with
        | some port =>
          match serialWait port env.polls with
          | .confirmed n => (.okSerialConfirmed n, 1)
          | .exhausted => (.okInconclusive, 1)
        | none => (.okRecovered, 1)
    else (.fatalTransfer "could not write firmware to the device" (.libUsb c), 0)
  | .other c => (.fatalTransfer "could not write firmware to the device" (.other c), 0)

/-- The session control flow of `Cli::run` (download.rs lines 54-186). -/
def runSession (cfg : Cfg) (env : Env) : SessionTrace :=
  match acquire cfg.wait env.opens with
  | none =>
    { result := .stuckWaiting, openProbes := env.opens.length,
      usbResets := 0, mcuResetFailMsg := mcuMsgOf cfg env }
  | some (.couldNotOpen, n) =>
    { result := .fatalOpen "could not open device" .couldNotOpen,
      openProbes := n, usbResets := 0, mcuResetFailMsg := mcuMsgOf cfg env }
  | some (.otherErr m, n) =>
    { result := .fatalOpen "could not open device" (.otherErr m),
      openProbes := n, usbResets := 0, mcuResetFailMsg := mcuMsgOf cfg env }
  | some (.opened, n) =>
    { result := (afterOpen cfg env).1, openProbes := n,
      usbResets := (afterOpen cfg env).2, mcuResetFailMsg := mcuMsgOf cfg env }

example :
    (runSession
      { wait := false, reset := false, serialPort := none, fileSize := 4 }
      { resetMcu := .ok (), opens := [.opened], dl := .libUsb "Pipe error",
        chunks := [4], recoveryReset := .ok (), polls := [],
        finalReset := .ok () }).result = .okRecovered := by decide

example :
    (runSession
      { wait := false, reset := false, serialPort := none, fileSize := 0 }
      { resetMcu := .ok (), opens := [.opened], dl := .libUsb "Pipe error",
        chunks := [], recoveryReset := .ok (), polls := [],
        finalReset := .ok () }).result
      = .fatalTransfer "could not write firmware to the device"
          (.libUsb "Pipe error") := by decide

example :
    (runSession
      { wait := false, reset := false, serialPort := some "COM7", fileSize := 4 }
      { resetMcu := .ok (), opens := [.opened], dl := .libUsb "x",
        chunks := [2, 2], recoveryReset := .ok (),
        polls := [.error (), .ok ["COM3", "COM7"]],
        finalReset := .ok () }).result = .okSerialConfirmed 2 := by decide

example :
    (runSession
      { wait := true, reset := false, serialPort := none, fileSize := 4 }
      { resetMcu := .ok (), opens := [.couldNotOpen, .couldNotOpen, .opened],
        dl := .ok 4, chunks := [4], recoveryReset := .ok (), polls := [],
        finalReset := .ok () }).openProbes = 3 := by decide

/-! ### Lemmas about the numeric parsers -/

/-- The digit fold is bounded below by its accumulator (the radix is at
least 1, so each step does not decrease the value). -/
theorem foldVal_base_le (r : Nat) (dv : Char → Nat) (hr : 1 ≤ r) :
    ∀ (l : List Char) (acc : Nat), acc ≤ l.foldl (fun a c => a * r + dv c) acc := by
  intro l
  induction l with
  | nil => intro acc; exact Nat.le_refl acc
  | cons c cs ih =>
    intro acc
    rw [List.foldl_cons]
    refine Nat.le_trans ?_ (ih (acc * r + dv c))
    calc acc = acc * 1 := (Nat.mul_one acc).symm
      _ ≤ acc * r := Nat.mul_le_mul_left acc hr
      _ ≤ acc * r + dv c := Nat.le_add_right _ _

/-- Completeness of the digit loop: on a string of valid digits whose
folded value fits under `max`, `radixDigits` returns that value. -/
theorem radixDigits_complete (r max : Nat) (isD : Char → Bool) (dv : Char → Nat)
    (hr : 1 ≤ r)
    (hchar : ∀ c, charToDigit r c = if isD c then some (dv c) else none) :
    ∀ (l : List Char) (acc : Nat), l.all isD = true →
      l.foldl (fun a c => a * r + dv c) acc ≤ max →
      radixDigits r max l acc = some (l.foldl (fun a c => a * r + dv c) acc) := by
  intro l
  induction l with
  | nil => intro acc _ _; rfl
  | cons c cs ih =>
    intro acc hall hle
    rw [List.all_cons, Bool.and_eq_true] at hall
    rw [List.foldl_cons] at hle ⊢
    have hc : charToDigit r c = some (dv c) := by rw [hchar c, if_pos hall.1]
    have hb : acc * r + dv c ≤ cs.foldl (fun a c => a * r + dv c) (acc * r + dv c) :=
      foldVal_base_le r dv hr cs _
    simp only [radixDigits, hc]
    rw [if_neg (by omega), if_neg (by omega)]
    exact ih _ hall.2 hle

/-- Soundness of the digit loop: a successful parse means every character
was a valid digit, the value is the digit fold, and it fits under `max`. -/
theorem radixDigits_sound (r max : Nat) (isD : Char → Bool) (dv : Char → Nat)
    (hchar : ∀ c, charToDigit r c = if isD c then some (dv c) else none) :
    ∀ (l : List Char) (acc v : Nat), acc ≤ max →
      radixDigits r max l acc = some v →
      l.all isD = true ∧ v = l.foldl (fun a c => a * r + dv c) acc ∧ v ≤ max := by
  intro l
  induction l with
  | nil =>
    intro acc v hacc h
    simp only [radixDigits, Option.some.injEq] at h
    exact ⟨rfl, h.symm, h ▸ hacc⟩
  | cons c cs ih =>
    intro acc v hacc h
    by_cases hd : isD c = true
    · have hc : charToDigit r c = some (dv c) := by rw [hchar c, if_pos hd]
      simp only [radixDigits, hc] at h
      by_cases h1 : acc * r > max
      · rw [if_pos h1] at h; exact absurd h (by simp)
      · rw [if_neg h1] at h
        by_cases h2 : acc * r + dv c > max
        · rw [if_pos h2] at h; exact absurd h (by simp)
        · rw [if_neg h2] at h
          obtain ⟨ha, hv, hm⟩ := ih _ _ (by omega) h
          exact ⟨by simp [List.all_cons, hd, ha], by rw [List.foldl_cons]; exact hv, hm⟩
    · have hc : charToDigit r c = none := by
        rw [hchar c, if_neg hd]
      simp only [radixDigits, hc] at h
      exact absurd h (by simp)

/-- Completeness of `fromStrRadix` on unsigned digit strings. -/
theorem fromStrRadix_complete (r max : Nat) (isD : Char → Bool) (dv : Char → Nat)
    (hr : 1 ≤ r)
    (hchar : ∀ c, charToDigit r c = if isD c then some (dv c) else none)
    (hplus : isD '+' = false) :
    ∀ (l : List Char), l ≠ [] → l.all isD = true →
      l.foldl (fun a c => a * r + dv c) 0 ≤ max →
      fromStrRadix r max l = some (l.foldl (fun a c => a * r + dv c) 0) := by
  intro l hne hall hle
  cases l with
  | nil => exact absurd rfl hne
  | cons c cs =>
    have hc : isD c = true := by
      rw [List.all_cons, Bool.and_eq_true] at hall
      exact hall.1
    have hcp : ¬ (c = '+') := by
      intro e
      rw [e, hplus] at hc
      exact Bool.false_ne_true hc
    simp only [fromStrRadix, if_neg hcp]
    exact radixDigits_complete r max isD dv hr hchar (c :: cs) 0 hall hle

/-- Soundness of `fromStrRadix`: a successful parse means the input, after
stripping one optional leading `+`, is a non-empty valid digit string whose
value is the digit fold and fits under `max`. -/
theorem fromStrRadix_sound (r max : Nat) (isD : Char → Bool) (dv : Char → Nat)
    (hchar : ∀ c, charToDigit r c = if isD c then some (dv c) else none) :
    ∀ (l : List Char) (v : Nat), fromStrRadix r max l = some v →
      stripPlus l ≠ [] ∧ (stripPlus l).all isD = true ∧
      v = (stripPlus l).foldl (fun a c => a * r + dv c) 0 ∧ v ≤ max := by
  intro l v h
  cases l with
  | nil => exact absurd h (by simp [fromStrRadix])
  | cons c cs =>
    simp only [fromStrRadix] at h
    by_cases hp : c = '+'
    · rw [if_pos hp] at h
      cases cs with
      | nil => exact absurd h (by simp)
      | cons d ds =>
        simp only [List.isEmpty_cons, if_neg Bool.false_ne_true] at h
        obtain ⟨ha, hv, hm⟩ :=
          radixDigits_sound r max isD dv hchar (d :: ds) 0 v (Nat.zero_le max) h
        have hs : stripPlus (c :: d :: ds) = d :: ds := by simp [stripPlus, hp]
        rw [hs]
        exact ⟨by simp, ha, hv, hm⟩
    · rw [if_neg hp] at h
      obtain ⟨ha, hv, hm⟩ :=
        radixDigits_sound r max isD dv hchar (c :: cs) 0 v (Nat.zero_le max) h
      refine ⟨?_, ?_, ?_, hm⟩ <;> simp [stripPlus, hp, ha, hv]

/-- The digit table of `charToDigit` at radix 16 agrees with the
specification-side hexadecimal digits and values. -/
theorem charToDigit_hex (c : Char) :
    charToDigit 16 c = if specIsHexDigit c then some (specHexDigitVal c) else none := by
  simp only [charToDigit, specIsHexDigit, specHexDigitVal, decide_eq_true_eq]
  split_ifs <;> first
    | rfl
    | omega
    | (simp only [Option.some.injEq]; omega)

/-- The digit table of `charToDigit` at radix 10 agrees with the
specification-side decimal digits and values. -/
theorem charToDigit_dec (c : Char) :
    charToDigit 10 c = if specIsDecDigit c then some (c.toNat - 48) else none := by
  simp only [charToDigit, specIsDecDigit, decide_eq_true_eq]
  split_ifs <;> first
    | rfl
    | omega

/-- Unfolding equation of `splitOnce` on a cons cell. -/
theorem splitOnce_cons (sep c : Char) (cs : List Char) :
    splitOnce sep (c :: cs) =
      if c = sep then some ([], cs)
      else
        match splitOnce sep cs with
        | none => none
        | some (a, b) => some (c :: a, b) := rfl

/-- `splitOnce` splits at the first occurrence of the separator. -/
theorem splitOnce_at_first (sep : Char) :
    ∀ (a b : List Char), sep ∉ a →
      splitOnce sep (a ++ sep :: b) = some (a, b) := by
  intro a
  induction a with
  | nil =>
    intro b _
    simp [splitOnce]
  | cons c a' ih =>
    intro b hmem
    have hc : ¬ (c = sep) := by
      intro e
      exact hmem (by rw [e]; exact List.mem_cons_self _ _)
    have ht : sep ∉ a' := fun h => hmem (List.mem_cons_of_mem c h)
    rw [List.cons_append, splitOnce_cons, if_neg hc, ih b ht]

/-- `splitOnce` fails exactly when the separator is absent. -/
theorem splitOnce_not_mem (sep : Char) :
    ∀ (s : List Char), sep ∉ s → splitOnce sep s = none := by
  intro s
  induction s with
  | nil => intro _; rfl
  | cons c cs ih =>
    intro hmem
    have hc : ¬ (c = sep) := by
      intro e
      exact hmem (by rw [e]; exact List.mem_cons_self _ _)
    have ht : sep ∉ cs := fun h => hmem (List.mem_cons_of_mem c h)
    rw [splitOnce_cons, if_neg hc, ih ht]

/-! ### Lemmas about the progress bar and the benign-disconnect guard -/

/-- The fold of `barStep` accumulates the chunk sum into the position. -/
theorem barStep_foldl_pos (fs : Nat) :
    ∀ (chunks : List Nat) (p : Nat) (b : Bool),
      (chunks.foldl (barStep fs) (p, b)).1 = p + chunks.sum := by
  intro chunks
  induction chunks with
  | nil => intro p b; simp
  | cons c cs ih =>
    intro p b
    rw [List.foldl_cons]
    simp only [barStep]
    rw [ih]
    simp [List.sum_cons]
    omega

/-- If the chunks are non-empty and sum exactly to `file_size`, the last
progress callback finishes the bar. -/
theorem barFinished_of_sum (fs : Nat) (chunks : List Nat)
    (hne : chunks ≠ []) (hsum : chunks.sum = fs) :
    barFinished fs chunks = true := by
  rcases List.eq_nil_or_concat chunks with h | ⟨l, a, rfl⟩
  · exact absurd h hne
  · rw [List.concat_eq_append] at hsum ⊢
    unfold barFinished
    rw [List.foldl_append]
    simp only [List.foldl_cons, List.foldl_nil, barStep]
    rw [barStep_foldl_pos]
    have hfs : 0 + l.sum + a = fs := by
      rw [← hsum]
      simp [List.sum_append]
    rw [hfs]
    simp

/-- While the cumulative position stays strictly below `file_size`, the
bar is never finished. -/
theorem barStep_foldl_not_finished (fs : Nat) :
    ∀ (chunks : List Nat) (p : Nat), p + chunks.sum < fs →
      (chunks.foldl (barStep fs) (p, false)).2 = false := by
  intro chunks
  induction chunks with
  | nil => intro p _; rfl
  | cons c cs ih =>
    intro p h
    rw [List.sum_cons] at h
    rw [List.foldl_cons]
    simp only [barStep]
    have hne : (p + c == fs) = false := by
      simp only [beq_eq_false_iff_ne, ne_eq]
      omega
    rw [hne]
    simp only [Bool.or_false]
    exact ih (p + c) (by omega)

/-- A transfer that stopped strictly short of `file_size` leaves the bar
unfinished. -/
theorem barFinished_false_of_lt (fs : Nat) (chunks : List Nat)
    (h : chunks.sum < fs) : barFinished fs chunks = false := by
  unfold barFinished
  exact barStep_foldl_not_finished fs chunks 0 (by omega)

/-! ### Lemmas about the device-acquisition loop -/

/-- Unfolding equation of `acquireLoop` on a `CouldNotOpenDevice` tick. -/
theorem acquireLoop_cons_miss (l : List OpenRes) :
    acquireLoop (.couldNotOpen :: l) =
      match acquireLoop l with
      | none => none
      | some (q, n) => some (q, n + 1) := rfl

/-- Unfolding equation of blocking `acquire` on a first
`CouldNotOpenDevice` result. -/
theorem acquire_cons_miss_wait (l : List OpenRes) :
    acquire true (.couldNotOpen :: l) =
      match acquireLoop l with
      | none => none
      | some (q, n) => some (q, n + 1) := rfl

/-- The retry loop breaks at the first non-`CouldNotOpenDevice` result,
after consuming one probe per preceding `CouldNotOpenDevice`. -/
theorem acquireLoop_spec :
    ∀ (k : Nat) (r : OpenRes) (rest : List OpenRes), r ≠ .couldNotOpen →
      acquireLoop (List.replicate k .couldNotOpen ++ r :: rest) = some (r, k + 1) := by
  intro k
  induction k with
  | zero =>
    intro r rest hr
    cases r with
    | couldNotOpen => exact absurd rfl hr
    | otherErr m => rfl
    | opened => rfl
  | succ k ih =>
    intro r rest hr
    rw [List.replicate_succ, List.cons_append, acquireLoop_cons_miss, ih r rest hr]

/-- Blocking acquisition: with `wait` set, the first non-`CouldNotOpenDevice`
result is returned after exactly (number of leading misses) + 1 probes. -/
theorem acquire_blocking (k : Nat) (r : OpenRes) (rest : List OpenRes)
    (hr : r ≠ .couldNotOpen) :
    acquire true (List.replicate k .couldNotOpen ++ r :: rest) = some (r, k + 1) := by
  cases k with
  | zero =>
    cases r with
    | couldNotOpen => exact absurd rfl hr
    | otherErr m => rfl
    | opened => rfl
  | succ k =>
    rw [List.replicate_succ, List.cons_append, acquire_cons_miss_wait,
      acquireLoop_spec k r rest hr]

/-! ### Lemmas about the serial wait loop -/

/-- If the port name first appears at poll index `i`, within the
remaining fuel, the loop confirms after `i + 1` polls. -/
theorem serialWaitFrom_confirmed (port : String)
    (polls : List (Except Unit (List String))) :
    ∀ (fuel i0 i : Nat), i0 ≤ i → i < i0 + fuel →
      pollHit port (pollAt polls i) = true →
      (∀ j, i0 ≤ j → j < i → pollHit port (pollAt polls j) = false) →
      serialWaitFrom port polls fuel i0 = .confirmed (i + 1) := by
  intro fuel
  induction fuel with
  | zero =>
    intro i0 i h0 h1 _ _
    omega
  | succ fuel ih =>
    intro i0 i h0 h1 hhit hfirst
    by_cases he : i0 = i
    · subst he
      simp only [serialWaitFrom, hhit, if_true]
    · have hlt : i0 < i := by omega
      have hmiss : pollHit port (pollAt polls i0) = false :=
        hfirst i0 (Nat.le_refl i0) hlt
      simp only [serialWaitFrom, hmiss, Bool.false_eq_true, if_false]
      exact ih (i0 + 1) i (by omega) (by omega) hhit
        (fun j hj1 hj2 => hfirst j (by omega) hj2)

/-- If no poll within the remaining fuel sees the port name, the loop
exhausts its budget. -/
theorem serialWaitFrom_exhausted (port : String)
    (polls : List (Except Unit (List String))) :
    ∀ (fuel i0 : Nat),
      (∀ j, i0 ≤ j → j < i0 + fuel → pollHit port (pollAt polls j) = false) →
      serialWaitFrom port polls fuel i0 = .exhausted := by
  intro fuel
  induction fuel with
  | zero => intro i0 _; rfl
  | succ fuel ih =>
    intro i0 hnone
    have hmiss : pollHit port (pollAt polls i0) = false :=
      hnone i0 (Nat.le_refl i0) (by omega)
    simp only [serialWaitFrom, hmiss, Bool.false_eq_true, if_false]
    exact ih (i0 + 1) (fun j hj1 hj2 => hnone j (by omega) (by omega))

/-- A confirmed outcome uses at least one and at most `fuel` polls beyond
the start index, and the confirming poll saw the port. -/
theorem serialWaitFrom_confirmed_bound (port : String)
    (polls : List (Except Unit (List String))) :
    ∀ (fuel i0 n : Nat), serialWaitFrom port polls fuel i0 = .confirmed n →
      i0 < n ∧ n ≤ i0 + fuel ∧ pollHit port (pollAt polls (n - 1)) = true := by
  intro fuel
  induction fuel with
  | zero => intro i0 n h; exact absurd h (by simp [serialWaitFrom])
  | succ fuel ih =>
    intro i0 n h
    by_cases hh : pollHit port (pollAt polls i0) = true
    · simp only [serialWaitFrom, hh, if_true] at h
      cases h
      exact ⟨by omega, by omega, by simpa using hh⟩
    · have hmiss : pollHit port (pollAt polls i0) = false := by
        simpa using hh
      simp only [serialWaitFrom, hmiss, Bool.false_eq_true, if_false] at h
      obtain ⟨h1, h2, h3⟩ := ih (i0 + 1) n h
      exact ⟨by omega, by omega, h3⟩

/-! ### Specialisations to the hex and decimal parsers -/

/-- On a plain hexadecimal numeral fitting under `max`, `fromStrRadix`
returns its value. -/
theorem fromStrRadix_hex_val (max : Nat) (l : List Char)
    (hn : specIsHexNumeral l = true) (hv : specHexVal l ≤ max) :
    fromStrRadix 16 max l = some (specHexVal l) := by
  have hne : l ≠ [] := by
    intro e
    rw [e] at hn
    exact absurd hn (by decide)
  have hall : l.all specIsHexDigit = true := by
    rw [specIsHexNumeral, Bool.and_eq_true] at hn
    exact hn.2
  exact fromStrRadix_complete 16 max specIsHexDigit specHexDigitVal (by omega)
    charToDigit_hex (by decide) l hne hall hv

/-- Soundness of 16-ary `fromStrRadix`: success means the input minus an
optional `+` sign is a hexadecimal numeral whose value fits under `max`. -/
theorem fromStrRadix_hex_sound (max : Nat) (l : List Char) (v : Nat)
    (h : fromStrRadix 16 max l = some v) :
    specIsHexNumeral (stripPlus l) = true ∧ v = specHexVal (stripPlus l) ∧ v ≤ max := by
  obtain ⟨hne, hall, hv, hm⟩ :=
    fromStrRadix_sound 16 max specIsHexDigit specHexDigitVal charToDigit_hex l v h
  have hie : (stripPlus l).isEmpty = false := by
    cases hsp : stripPlus l with
    | nil => exact absurd hsp hne
    | cons x xs => rfl
  refine ⟨?_, hv, hm⟩
  rw [specIsHexNumeral, hie, hall]
  decide

/-- Failure of 16-ary `fromStrRadix` when the `+`-stripped input is not a
hexadecimal numeral fitting under `max`. -/
theorem fromStrRadix_hex_none (max : Nat) (l : List Char)
    (h : ¬ (specIsHexNumeral (stripPlus l) = true ∧ specHexVal (stripPlus l) ≤ max)) :
    fromStrRadix 16 max l = none := by
  cases hf : fromStrRadix 16 max l with
  | none => rfl
  | some v =>
    obtain ⟨hn, hv, hm⟩ := fromStrRadix_hex_sound max l v hf
    exact absurd ⟨hn, hv ▸ hm⟩ h

/-- On a plain decimal numeral fitting under `max`, `fromStrRadix`
returns its value. -/
theorem fromStrRadix_dec_val (max : Nat) (l : List Char)
    (hn : specIsDecNumeral l = true) (hv : specDecVal l ≤ max) :
    fromStrRadix 10 max l = some (specDecVal l) := by
  have hne : l ≠ [] := by
    intro e
    rw [e] at hn
    exact absurd hn (by decide)
  have hall : l.all specIsDecDigit = true := by
    rw [specIsDecNumeral, Bool.and_eq_true] at hn
    exact hn.2
  exact fromStrRadix_complete 10 max specIsDecDigit (fun c => c.toNat - 48) (by omega)
    charToDigit_dec (by decide) l hne hall hv

/-- Soundness of 10-ary `fromStrRadix`. -/
theorem fromStrRadix_dec_sound (max : Nat) (l : List Char) (v : Nat)
    (h : fromStrRadix 10 max l = some v) :
    specIsDecNumeral (stripPlus l) = true ∧ v = specDecVal (stripPlus l) ∧ v ≤ max := by
  obtain ⟨hne, hall, hv, hm⟩ :=
    fromStrRadix_sound 10 max specIsDecDigit (fun c => c.toNat - 48) charToDigit_dec l v h
  have hie : (stripPlus l).isEmpty = false := by
    cases hsp : stripPlus l with
    | nil => exact absurd hsp hne
    | cons x xs => rfl
  refine ⟨?_, hv, hm⟩
  rw [specIsDecNumeral, hie, hall]
  decide

/-- Failure of 10-ary `fromStrRadix` when the `+`-stripped input is not a
decimal numeral fitting under `max`. -/
theorem fromStrRadix_dec_none (max : Nat) (l : List Char)
    (h : ¬ (specIsDecNumeral (stripPlus l) = true ∧ specDecVal (stripPlus l) ≤ max)) :
    fromStrRadix 10 max l = none := by
  cases hf : fromStrRadix 10 max l with
  | none => rfl
  | some v =>
    obtain ⟨hn, hv, hm⟩ := fromStrRadix_dec_sound max l v hf
    exact absurd ⟨hn, hv ▸ hm⟩ h

/-- The separator `:` is not a hexadecimal digit, so it never occurs in
a hexadecimal numeral. -/
theorem hexNumeral_no_colon (l : List Char) (hn : specIsHexNumeral l = true) :
    ':' ∉ l := by
  intro hmem
  rw [specIsHexNumeral, Bool.and_eq_true] at hn
  have := List.all_eq_true.mp hn.2 ':' hmem
  exact absurd this (by decide)

/-! ### Claim C8 — `parse_vid_pid` -/

/-- C8, counterexample to the claim as stated: `"+1EAF:0003"` has a first
half that is not a hexadecimal numeral (it carries a `+` sign), yet
`parse_vid_pid` succeeds, because Rust's `u16::from_str_radix` accepts one
leading `+`.  The claim's failure direction ("halves not both valid 16-bit
hexadecimal → error") is therefore false on the code. -/
theorem parse_vid_pid_plus_sign_cx :
    parseVidPidS "+1EAF:0003" = some (7855, 3) ∧
    specIsHexNumeral "+1EAF".data = false := by decide

/-- C8 (amended): splitting happens at the first `:`; a half parses as a
16-bit hex value exactly when, after an optional leading `+` sign, it is a
non-empty string of hexadecimal digits with value below 2^16.  Part 1:
plain hex halves round-trip to their exact values.  Part 2: an input
without `:` fails.  Parts 3 and 4: an input whose first or second half is
not (optionally `+`-signed) 16-bit hex fails. -/
theorem parse_vid_pid_amended :
    (∀ (h1 h2 : List Char), specIsHexNumeral h1 = true → specHexVal h1 < 65536 →
        specIsHexNumeral h2 = true → specHexVal h2 < 65536 →
        parseVidPid (h1 ++ ':' :: h2) = some (specHexVal h1, specHexVal h2)) ∧
    (∀ (s : List Char), ':' ∉ s → parseVidPid s = none) ∧
    (∀ (a b : List Char), ':' ∉ a → specPlusHex16 a = false →
        parseVidPid (a ++ ':' :: b) = none) ∧
    (∀ (a b : List Char), ':' ∉ a → specPlusHex16 b = false →
        parseVidPid (a ++ ':' :: b) = none) := by
  refine ⟨?_, ?_, ?_, ?_⟩
  · intro h1 h2 hn1 hv1 hn2 hv2
    have e1 : fromStrRadix 16 65535 h1 = some (specHexVal h1) :=
      fromStrRadix_hex_val 65535 h1 hn1 (by omega)
    have e2 : fromStrRadix 16 65535 h2 = some (specHexVal h2) :=
      fromStrRadix_hex_val 65535 h2 hn2 (by omega)
    simp only [parseVidPid, splitOnce_at_first ':' h1 h2 (hexNumeral_no_colon h1 hn1),
      e1, e2]
  · intro s hns
    simp only [parseVidPid, splitOnce_not_mem ':' s hns]
  · intro a b hna hfa
    have ea : fromStrRadix 16 65535 a = none := by
      apply fromStrRadix_hex_none
      intro ⟨hn', hv'⟩
      rw [specPlusHex16, hn', Bool.true_and, decide_eq_false_iff_not] at hfa
      omega
    simp only [parseVidPid, splitOnce_at_first ':' a b hna, ea]
  · intro a b hna hfb
    have eb : fromStrRadix 16 65535 b = none := by
      apply fromStrRadix_hex_none
      intro ⟨hn', hv'⟩
      rw [specPlusHex16, hn', Bool.true_and, decide_eq_false_iff_not] at hfb
      omega
    cases hfa : fromStrRadix 16 65535 a with
    | none => simp only [parseVidPid, splitOnce_at_first ':' a b hna, hfa]
    | some v => simp only [parseVidPid, splitOnce_at_first ':' a b hna, hfa, eb]

/-- C8, witness: the amended theorem applied at concrete inputs. -/
theorem parse_vid_pid_amended_witness :
    parseVidPid ("1EAF".data ++ ':' :: "0003".data) = some (7855, 3) ∧
    parseVidPid "1EAF0003".data = none ∧
    parseVidPid ("1EAG".data ++ ':' :: "0003".data) = none ∧
    parseVidPid ("1EAF".data ++ ':' :: "ZZZZ".data) = none := by
  refine ⟨?_, ?_, ?_, ?_⟩
  · have h := parse_vid_pid_amended.1 "1EAF".data "0003".data
      (by decide) (by decide) (by decide) (by decide)
    rw [h]
    decide
  · exact parse_vid_pid_amended.2.1 "1EAF0003".data (by decide)
  · exact parse_vid_pid_amended.2.2.1 "1EAG".data "0003".data (by decide) (by decide)
  · exact parse_vid_pid_amended.2.2.2 "1EAF".data "ZZZZ".data (by decide) (by decide)

/-! ### Claim C9 — `parse_address` -/

/-- C9, counterexample to the claim as stated: `"0x+1"` has a remainder
after the `0x` prefix (`"+1"`) that is not a hexadecimal numeral, yet
`parse_address` succeeds with value 1, because Rust's
`u32::from_str_radix` accepts one leading `+`.  The claim's failure
direction ("remaining text not a valid numeral → error") is therefore
false on the code. -/
theorem parse_address_plus_sign_cx :
    parseAddressS "0x+1" = some 1 ∧
    specIsHexNumeral "+1".data = false := by decide

/-- C9 (amended): a decimal numeral below 2^32 parses to its exact value;
a `0x`/`0X`-prefixed hexadecimal numeral below 2^32 parses to its exact
value; a `0x`-prefixed input whose remainder is not (optionally
`+`-signed) 32-bit hex fails; an unprefixed input that is not (optionally
`+`-signed) 32-bit decimal fails. -/
theorem parse_address_amended :
    (∀ (l : List Char), specIsDecNumeral l = true → specDecVal l < 4294967296 →
        parseAddress l = some (specDecVal l)) ∧
    (∀ (c1 : Char) (rest : List Char), c1 = 'x' ∨ c1 = 'X' →
        specIsHexNumeral rest = true → specHexVal rest < 4294967296 →
        parseAddress ('0' :: c1 :: rest) = some (specHexVal rest)) ∧
    (∀ (l : List Char), starts0x l = true → specPlusHex32 (l.drop 2) = false →
        parseAddress l = none) ∧
    (∀ (l : List Char), starts0x l = false → specPlusDec32 l = false →
        parseAddress l = none) := by
  refine ⟨?_, ?_, ?_, ?_⟩
  · intro l hn hv
    have hfalse : starts0x l = false := by
      cases l with
      | nil => rfl
      | cons c0 t =>
        cases t with
        | nil => rfl
        | cons c1 t' =>
          have hd : specIsDecDigit c1 = true := by
            rw [specIsDecNumeral, Bool.and_eq_true] at hn
            have h2 := hn.2
            rw [List.all_cons, Bool.and_eq_true] at h2
            have h3 := h2.2
            rw [List.all_cons, Bool.and_eq_true] at h3
            exact h3.1
          rw [specIsDecDigit, decide_eq_true_eq] at hd
          simp only [starts0x]
          apply decide_eq_false
          intro ⟨_, h120⟩
          rw [toAsciiLowerNat] at h120
          split_ifs at h120 <;> omega
    simp only [parseAddress, hfalse, Bool.false_eq_true, if_false]
    exact fromStrRadix_dec_val 4294967295 l hn (by omega)
  · intro c1 rest hc1 hn hv
    have h0x : starts0x ('0' :: c1 :: rest) = true := by
      rcases hc1 with rfl | rfl <;> rfl
    simp only [parseAddress, h0x, if_true, List.drop_succ_cons, List.drop_zero]
    exact fromStrRadix_hex_val 4294967295 rest hn (by omega)
  · intro l h0x hf
    have e : fromStrRadix 16 4294967295 (l.drop 2) = none := by
      apply fromStrRadix_hex_none
      intro ⟨hn', hv'⟩
      rw [specPlusHex32, hn', Bool.true_and, decide_eq_false_iff_not] at hf
      omega
    simp only [parseAddress, h0x, if_true, e]
  · intro l h0x hf
    have e : fromStrRadix 10 4294967295 l = none := by
      apply fromStrRadix_dec_none
      intro ⟨hn', hv'⟩
      rw [specPlusDec32, hn', Bool.true_and, decide_eq_false_iff_not] at hf
      omega
    simp only [parseAddress, h0x, Bool.false_eq_true, if_false, e]

/-- C9, witness: the amended theorem applied at concrete inputs. -/
theorem parse_address_amended_witness :
    parseAddress "134217728".data = some 134217728 ∧
    parseAddress ('0' :: 'x' :: "0800C000".data) = some 134266880 ∧
    parseAddress "0xGG".data = none ∧
    parseAddress "12ab".data = none := by
  refine ⟨?_, ?_, ?_, ?_⟩
  · have h := parse_address_amended.1 "134217728".data (by decide) (by decide)
    rw [h]
    decide
  · have h := parse_address_amended.2.1 'x' "0800C000".data (Or.inl rfl)
      (by decide) (by decide)
    rw [h]
    decide
  · exact parse_address_amended.2.2.1 "0xGG".data (by decide) (by decide)
  · exact parse_address_amended.2.2.2 "12ab".data (by decide) (by decide)

/-! ### Session-level helpers -/

/-- Unfolding of `runSession` when acquisition succeeds after `k` probes. -/
theorem runSession_opened (cfg : Cfg) (env : Env) (k : Nat)
    (hacq : acquire cfg.wait env.opens = some (.opened, k)) :
    runSession cfg env =
      { result := (afterOpen cfg env).1, openProbes := k,
        usbResets := (afterOpen cfg env).2, mcuResetFailMsg := mcuMsgOf cfg env } := by
  unfold runSession
  rw [hacq]

/-! ### Claim C1 — post-transfer failure classification -/

/-- C1, counterexample to the claim as stated: with a zero-length firmware
image and a transport failure before any progress callback, the cumulative
progress (0) equals `totalLength` (0), yet the session classifies the
failure as genuine, because the benign-disconnect guard is
`bar.is_finished()` and the bar is only ever finished from inside a
progress callback — no callback ever runs here. -/
theorem completion_check_zero_cx :
    (runSession
        { wait := false, reset := false, serialPort := none, fileSize := 0 }
        { resetMcu := .ok (), opens := [.opened], dl := .libUsb "Pipe error",
          chunks := [], recoveryReset := .ok (), polls := [],
          finalReset := .ok () }).result
      = .fatalTransfer "could not write firmware to the device" (.libUsb "Pipe error") ∧
    List.sum ([] : List Nat) = 0 ∧
    isGenuineFailure
      (runSession
        { wait := false, reset := false, serialPort := none, fileSize := 0 }
        { resetMcu := .ok (), opens := [.opened], dl := .libUsb "Pipe error",
          chunks := [], recoveryReset := .ok (), polls := [],
          finalReset := .ok () }).result = true := by decide

/-- C1 (amended): on a transport-class (`Error::LibUsb`) download failure,
if the progress callbacks are non-empty and sum exactly to `totalLength`
(always the case at completion when `totalLength > 0`), the session never
classifies the failure as genuine; if the cumulative progress is strictly
below `totalLength`, the session always takes the fatal-transfer arm,
surfacing the original transport error, regardless of the configured
serial endpoint.  (In the degenerate case `totalLength = 0` with no
callbacks, the failure is classified genuine.) -/
theorem completion_check_amended (cfg : Cfg) (env : Env) (c : String) (k : Nat)
    (hacq : acquire cfg.wait env.opens = some (.opened, k))
    (hdl : env.dl = .libUsb c) :
    (env.chunks ≠ [] → env.chunks.sum = cfg.fileSize →
      isGenuineFailure (runSession cfg env).result = false) ∧
    (env.chunks.sum < cfg.fileSize →
      (runSession cfg env).result =
        .fatalTransfer "could not write firmware to the device" (.libUsb c)) := by
  constructor
  · intro hne hsum
    have hbar := barFinished_of_sum cfg.fileSize env.chunks hne hsum
    rw [runSession_opened cfg env k hacq]
    simp only [afterOpen, hdl, hbar, if_true]
    cases env.recoveryReset with
    | error e => rfl
    | ok u =>
      dsimp only
      cases cfg.serialPort with
      | none => rfl
      | some port =>
        dsimp only
        cases serialWait port env.polls with
        | confirmed n => rfl
        | exhausted => rfl
  · intro hlt
    have hbar := barFinished_false_of_lt cfg.fileSize env.chunks hlt
    rw [runSession_opened cfg env k hacq]
    simp only [afterOpen, hdl, hbar, Bool.false_eq_true, if_false]

/-- Example session: benign completion, 4 bytes all delivered before the
transport failure, no serial endpoint. -/
def cfgBenignW : Cfg :=
  { wait := false, reset := false, serialPort := none, fileSize := 4 }

/-- Environment for `cfgBenignW`. -/
def envBenignW : Env :=
  { resetMcu := .ok (), opens := [.opened], dl := .libUsb "Pipe error",
    chunks := [2, 2], recoveryReset := .ok (), polls := [],
    finalReset := .ok () }

/-- Example session: genuine mid-transfer failure, 512 of 1024 bytes. -/
def cfgMidFailW : Cfg :=
  { wait := false, reset := false, serialPort := some "COM7", fileSize := 1024 }

/-- Environment for `cfgMidFailW`. -/
def envMidFailW : Env :=
  { resetMcu := .ok (), opens := [.opened], dl := .libUsb "Pipe error",
    chunks := [512], recoveryReset := .ok (), polls := [],
    finalReset := .ok () }

/-- C1, witness: the amended theorem applied at two concrete sessions, one
completing all 4 bytes before the transport failure (classified benign),
one failing at 512 of 1024 bytes (classified genuine). -/
theorem completion_check_witness :
    isGenuineFailure (runSession cfgBenignW envBenignW).result = false ∧
    (runSession cfgMidFailW envMidFailW).result
      = .fatalTransfer "could not write firmware to the device" (.libUsb "Pipe error") := by
  constructor
  · exact (completion_check_amended cfgBenignW envBenignW "Pipe error" 1
      rfl rfl).1 (by decide) (by decide)
  · exact (completion_check_amended cfgMidFailW envMidFailW "Pipe error" 1
      rfl rfl).2 (by decide)

/-! ### Claim C2 — the fatal transfer error and its message -/

/-- C2, counterexample to the claim as stated: a 1024-byte image failing
after 512 bytes surfaces the fixed context string
`could not write firmware to the device` wrapping the transport cause; the
rendered error chain contains neither `512` nor `1024` — the code attaches
no progress context to the error. -/
theorem transfer_failed_no_progress_cx :
    List.sum [512] = 512 ∧
    fatalMessage
      (runSession
        { wait := false, reset := false, serialPort := none, fileSize := 1024 }
        { resetMcu := .ok (), opens := [.opened], dl := .libUsb "Pipe error",
          chunks := [512], recoveryReset := .ok (), polls := [],
          finalReset := .ok () }).result
      = some "could not write firmware to the device: Pipe error" ∧
    strContains "512" "could not write firmware to the device: Pipe error" = false ∧
    strContains "1024" "could not write firmware to the device: Pipe error" = false := by
  decide

/-- C2 (amended): a genuine mid-transfer transport fault is fatal and is
surfaced as the fixed context message `could not write firmware to the
device` wrapping the original transport cause; the byte counts are not
part of the error (progress is visible only on the progress-bar
rendering, which is presentation-layer). -/
theorem transfer_failed_message_amended (cfg : Cfg) (env : Env) (c : String) (k : Nat)
    (hacq : acquire cfg.wait env.opens = some (.opened, k))
    (hdl : env.dl = .libUsb c)
    (hlt : env.chunks.sum < cfg.fileSize) :
    (runSession cfg env).result =
      .fatalTransfer "could not write firmware to the device" (.libUsb c) ∧
    fatalMessage (runSession cfg env).result =
      some ("could not write firmware to the device" ++ ": " ++ c) ∧
    exitOk (runSession cfg env).result = false := by
  have hbar := barFinished_false_of_lt cfg.fileSize env.chunks hlt
  rw [runSession_opened cfg env k hacq]
  refine ⟨?_, ?_, ?_⟩ <;>
    simp only [afterOpen, hdl, hbar, Bool.false_eq_true, if_false] <;> rfl

/-- C2, witness: the amended theorem applied at the concrete 512-of-1024
session. -/
theorem transfer_failed_message_witness :
    fatalMessage (runSession cfgMidFailW envMidFailW).result
      = some "could not write firmware to the device: Pipe error" := by
  have h := (transfer_failed_message_amended cfgMidFailW envMidFailW "Pipe error" 1
    rfl rfl (by decide)).2.1
  rw [h]
  decide

/-! ### Claim C3 — the serial wait loop -/

/-- C3: after a benign post-transfer disconnect, (1) the serial wait loop
is skipped entirely when no serial endpoint is configured; (2) if the
configured port first appears at poll `i` within the 20-poll budget, the
session ends successfully with serial confirmation after `i + 1 ≤ 20`
polls, and polls after the hit are irrelevant; (3) if no poll within the
budget sees the port, the session still ends successfully (exit code 0)
with the inconclusive outcome; (4) a confirmed outcome never uses more
than 20 polls. -/
theorem serial_wait_loop_spec (cfg : Cfg) (env : Env) (c port : String) (k : Nat)
    (hacq : acquire cfg.wait env.opens = some (.opened, k))
    (hdl : env.dl = .libUsb c)
    (hne : env.chunks ≠ []) (hsum : env.chunks.sum = cfg.fileSize)
    (hrr : env.recoveryReset = .ok ()) :
    (cfg.serialPort = none → (runSession cfg env).result = .okRecovered) ∧
    (∀ i, cfg.serialPort = some port → i < 20 →
      pollHit port (pollAt env.polls i) = true →
      (∀ j, j < i → pollHit port (pollAt env.polls j) = false) →
      (runSession cfg env).result = .okSerialConfirmed (i + 1) ∧ i + 1 ≤ 20 ∧
      (∀ polls2, (∀ j, j ≤ i → pollAt polls2 j = pollAt env.polls j) →
        (runSession cfg { env with polls := polls2 }).result
          = .okSerialConfirmed (i + 1))) ∧
    (cfg.serialPort = some port →
      (∀ j, j < 20 → pollHit port (pollAt env.polls j) = false) →
      (runSession cfg env).result = .okInconclusive ∧
      exitOk (runSession cfg env).result = true) ∧
    (∀ n, cfg.serialPort = some port →
      (runSession cfg env).result = .okSerialConfirmed n → n ≤ 20) := by
  have hbar := barFinished_of_sum cfg.fileSize env.chunks hne hsum
  have hrun := runSession_opened cfg env k hacq
  refine ⟨?_, ?_, ?_, ?_⟩
  · intro hs
    rw [hrun]
    simp only [afterOpen, hdl, hbar, if_true, hrr, hs]
  · intro i hs hi hhit hfirst
    have hsw : serialWait port env.polls = .confirmed (i + 1) :=
      serialWaitFrom_confirmed port env.polls 20 0 i (Nat.zero_le i) (by omega) hhit
        (fun j _ hj => hfirst j hj)
    refine ⟨?_, by omega, ?_⟩
    · rw [hrun]
      simp only [afterOpen, hdl, hbar, if_true, hrr, hs, hsw]
    · intro polls2 hagree
      have hhit2 : pollHit port (pollAt polls2 i) = true := by
        rw [hagree i (Nat.le_refl i)]
        exact hhit
      have hfirst2 : ∀ j, j < i → pollHit port (pollAt polls2 j) = false := by
        intro j hj
        rw [hagree j (by omega)]
        exact hfirst j hj
      have hsw2 : serialWait port polls2 = .confirmed (i + 1) :=
        serialWaitFrom_confirmed port polls2 20 0 i (Nat.zero_le i) (by omega) hhit2
          (fun j _ hj => hfirst2 j hj)
      rw [runSession_opened cfg { env with polls := polls2 } k hacq]
      simp only [afterOpen, hdl, hbar, if_true, hrr, hs, hsw2]
  · intro hs hnone
    have hsw : serialWait port env.polls = .exhausted :=
      serialWaitFrom_exhausted port env.polls 20 0 (fun j _ hj => hnone j (by omega))
    constructor
    · rw [hrun]
      simp only [afterOpen, hdl, hbar, if_true, hrr, hs, hsw]
    · rw [hrun]
      simp only [afterOpen, hdl, hbar, if_true, hrr, hs, hsw]
      rfl
  · intro n hs hres
    rw [hrun] at hres
    simp only [afterOpen, hdl, hbar, if_true, hrr, hs] at hres
    cases hsw : serialWait port env.polls with
    | confirmed m =>
      rw [hsw] at hres
      simp at hres
      have hb := serialWaitFrom_confirmed_bound port env.polls 20 0 m hsw
      omega
    | exhausted =>
      rw [hsw] at hres
      simp at hres

/-- Example benign session with serial endpoint `COM7` appearing at the
second poll. -/
def cfgSerialW : Cfg :=
  { wait := false, reset := false, serialPort := some "COM7", fileSize := 4 }

/-- Environment for `cfgSerialW`: one failed enumeration, then `COM7`. -/
def envSerialW : Env :=
  { resetMcu := .ok (), opens := [.opened], dl := .libUsb "Pipe error",
    chunks := [4], recoveryReset := .ok (),
    polls := [.error (), .ok ["COM3", "COM7"]], finalReset := .ok () }

/-- Environment for `cfgSerialW` in which `COM7` never appears. -/
def envSerialMissW : Env :=
  { resetMcu := .ok (), opens := [.opened], dl := .libUsb "Pipe error",
    chunks := [4], recoveryReset := .ok (),
    polls := [.ok ["COM3"]], finalReset := .ok () }

/-- C3, witness: the theorem applied at concrete sessions — confirmation
after 2 polls when `COM7` shows up in the second enumeration, and the
inconclusive-but-successful outcome when it never shows up. -/
theorem serial_wait_loop_witness :
    (runSession cfgSerialW envSerialW).result = .okSerialConfirmed 2 ∧
    (runSession cfgSerialW envSerialMissW).result = .okInconclusive ∧
    exitOk (runSession cfgSerialW envSerialMissW).result = true := by
  have h1 := (serial_wait_loop_spec cfgSerialW envSerialW "Pipe error" "COM7" 1
    rfl rfl (by decide) (by decide) rfl).2.1 1 rfl (by omega) (by decide)
    (by
      intro j hj
      have : j = 0 := by omega
      subst this
      decide)
  have h2 := (serial_wait_loop_spec cfgSerialW envSerialMissW "Pipe error" "COM7" 1
    rfl rfl (by decide) (by decide) rfl).2.2.1 rfl
    (by
      intro j hj
      match j, hj with
      | 0, _ => rfl
      | (m + 1), _ => rfl)
  exact ⟨h1.1, h2.1, h2.2⟩

/-! ### Claim C4 — blocking acquisition -/

/-- C4: in blocking mode, with `k` leading `CouldNotOpenDevice` results
followed by any other result `r`: exactly `k + 1` probes are performed;
if `r` is any other error it is surfaced immediately as the fatal open
error; and the session is identical to one whose open attempts end at
`r` — nothing after the first non-miss result is ever probed (in
particular, once the device opens no further probes happen). -/
theorem blocking_acquire_spec (cfg : Cfg) (env : Env) (k : Nat) (r : OpenRes)
    (rest : List OpenRes)
    (hw : cfg.wait = true)
    (hopens : env.opens = List.replicate k .couldNotOpen ++ r :: rest)
    (hr : r ≠ .couldNotOpen) :
    (runSession cfg env).openProbes = k + 1 ∧
    (∀ m, r = .otherErr m →
      (runSession cfg env).result = .fatalOpen "could not open device" (.otherErr m) ∧
      exitOk (runSession cfg env).result = false) ∧
    runSession cfg env
      = runSession cfg { env with opens := List.replicate k .couldNotOpen ++ [r] } := by
  have hacq : acquire cfg.wait env.opens = some (r, k + 1) := by
    rw [hw, hopens]
    exact acquire_blocking k r rest hr
  have hacq2 : acquire cfg.wait
      ({ env with opens := List.replicate k .couldNotOpen ++ [r] } : Env).opens
      = some (r, k + 1) := by
    rw [hw]
    exact acquire_blocking k r [] hr
  refine ⟨?_, ?_, ?_⟩
  · cases r with
    | couldNotOpen => exact absurd rfl hr
    | otherErr m => simp only [runSession, hacq]
    | opened => simp only [runSession, hacq]
  · intro m hrm
    subst hrm
    constructor
    · simp only [runSession, hacq]
    · simp only [runSession, hacq]
      rfl
  · cases r with
    | couldNotOpen => exact absurd rfl hr
    | otherErr m =>
      simp only [runSession, hacq, hacq2]
      rfl
    | opened =>
      simp only [runSession, hacq, hacq2]
      rfl

/-- Example blocking acquisition: two misses, then a permission-style
error. -/
def cfgBlockW : Cfg :=
  { wait := true, reset := false, serialPort := none, fileSize := 4 }

/-- Environment for `cfgBlockW`. -/
def envBlockW : Env :=
  { resetMcu := .ok (), opens := [.couldNotOpen, .couldNotOpen, .otherErr "Access denied"],
    dl := .ok 4, chunks := [4], recoveryReset := .ok (), polls := [],
    finalReset := .ok () }

/-- C4, witness: two misses then a non-miss error — three probes, error
surfaced fatally. -/
theorem blocking_acquire_witness :
    (runSession cfgBlockW envBlockW).openProbes = 3 ∧
    (runSession cfgBlockW envBlockW).result
      = .fatalOpen "could not open device" (.otherErr "Access denied") := by
  have h := blocking_acquire_spec cfgBlockW envBlockW 2 (.otherErr "Access denied") []
    rfl rfl (by decide)
  exact ⟨h.1, (h.2.1 "Access denied" rfl).1⟩

/-! ### Claim C5 — non-blocking acquisition -/

/-- C5: with the wait flag unset, a `CouldNotOpenDevice` failure on the
first open attempt is surfaced immediately as the fatal open error (the
device-not-found classification), after exactly one probe: the session is
identical to one with no further open attempts modelled, so no retry can
ever be observed. -/
theorem nonblocking_acquire_spec (cfg : Cfg) (env : Env) (rest : List OpenRes)
    (hw : cfg.wait = false)
    (hopens : env.opens = .couldNotOpen :: rest) :
    (runSession cfg env).result = .fatalOpen "could not open device" .couldNotOpen ∧
    (runSession cfg env).openProbes = 1 ∧
    exitOk (runSession cfg env).result = false ∧
    runSession cfg env = runSession cfg { env with opens := [.couldNotOpen] } := by
  have hacq : acquire cfg.wait env.opens = some (.couldNotOpen, 1) := by
    rw [hw, hopens]
    rfl
  have hacq2 : acquire cfg.wait
      ({ env with opens := [.couldNotOpen] } : Env).opens = some (.couldNotOpen, 1) := by
    rw [hw]
    rfl
  refine ⟨?_, ?_, ?_, ?_⟩
  · simp only [runSession, hacq]
  · simp only [runSession, hacq]
  · simp only [runSession, hacq]
    rfl
  · simp only [runSession, hacq, hacq2]
    rfl

/-- Environment for non-blocking acquisition against an absent device. -/
def envAbsentW : Env :=
  { resetMcu := .ok (), opens := [.couldNotOpen], dl := .ok 4, chunks := [4],
    recoveryReset := .ok (), polls := [], finalReset := .ok () }

/-- C5, witness: the theorem applied at a concrete non-blocking session. -/
theorem nonblocking_acquire_witness :
    (runSession cfgBenignW envAbsentW).result
      = .fatalOpen "could not open device" .couldNotOpen ∧
    (runSession cfgBenignW envAbsentW).openProbes = 1 := by
  have h := nonblocking_acquire_spec cfgBenignW envAbsentW [] rfl rfl
  exact ⟨h.1, h.2.1⟩

/-! ### Claim C6 — the post-download reset -/

/-- C6: when the reset flag is set and the download succeeds, the final
`usb_reset` is always attempted (exactly one `usb_reset` in the session);
its failure is fatal (non-zero exit), its success ends the session
successfully. -/
theorem final_reset_spec (cfg : Cfg) (env : Env) (b k : Nat)
    (hacq : acquire cfg.wait env.opens = some (.opened, k))
    (hdl : env.dl = .ok b)
    (hrst : cfg.reset = true) :
    (runSession cfg env).usbResets = 1 ∧
    (∀ e, env.finalReset = .error e →
      (runSession cfg env).result = .fatalFinalReset e ∧
      exitOk (runSession cfg env).result = false) ∧
    (env.finalReset = .ok () →
      (runSession cfg env).result = .okAfterReset ∧
      exitOk (runSession cfg env).result = true) := by
  have hrun := runSession_opened cfg env k hacq
  refine ⟨?_, ?_, ?_⟩
  · rw [hrun]
    simp only [afterOpen, hdl, hrst, if_true]
    cases env.finalReset with
    | ok u => rfl
    | error e => rfl
  · intro e hfr
    rw [hrun]
    refine ⟨?_, ?_⟩ <;> simp only [afterOpen, hdl, hrst, if_true, hfr, exitOk]
  · intro hfr
    rw [hrun]
    refine ⟨?_, ?_⟩ <;> simp only [afterOpen, hdl, hrst, if_true, hfr, exitOk]

/-- Configuration with the post-download reset flag set. -/
def cfgResetW : Cfg :=
  { wait := false, reset := true, serialPort := none, fileSize := 4 }

/-- Environment with a successful download and a failing final reset. -/
def envResetFailW : Env :=
  { resetMcu := .ok (), opens := [.opened], dl := .ok 4, chunks := [4],
    recoveryReset := .ok (), polls := [], finalReset := .error "no device" }

/-- C6, witness: the theorem applied at a session whose final reset
fails — the failure is fatal. -/
theorem final_reset_witness :
    (runSession cfgResetW envResetFailW).usbResets = 1 ∧
    (runSession cfgResetW envResetFailW).result = .fatalFinalReset "no device" ∧
    exitOk (runSession cfgResetW envResetFailW).result = false := by
  have h := final_reset_spec cfgResetW envResetFailW 4 1 rfl rfl rfl
  exact ⟨h.1, (h.2.1 "no device" rfl).1, (h.2.1 "no device" rfl).2⟩

/-! ### Claim C7 — the benign path ignores the reset flag -/

/-- C7: on the benign post-transfer disconnect path (with the recovery
reset succeeding), the session ends successfully, exactly one `usb_reset`
is issued (the recovery one), and the whole session trace is independent
of the post-download reset flag — the flag is never acted on there. -/
theorem benign_path_no_final_reset (cfg : Cfg) (env : Env) (c : String) (k : Nat)
    (hacq : acquire cfg.wait env.opens = some (.opened, k))
    (hdl : env.dl = .libUsb c)
    (hne : env.chunks ≠ []) (hsum : env.chunks.sum = cfg.fileSize)
    (hrr : env.recoveryReset = .ok ()) :
    exitOk (runSession cfg env).result = true ∧
    (runSession cfg env).usbResets = 1 ∧
    (∀ bflag, runSession { cfg with reset := bflag } env = runSession cfg env) := by
  have hbar := barFinished_of_sum cfg.fileSize env.chunks hne hsum
  have hrun := runSession_opened cfg env k hacq
  refine ⟨?_, ?_, ?_⟩
  · rw [hrun]
    simp only [afterOpen, hdl, hbar, if_true, hrr]
    cases cfg.serialPort with
    | none => rfl
    | some port =>
      dsimp only
      cases serialWait port env.polls with
      | confirmed n => rfl
      | exhausted => rfl
  · rw [hrun]
    simp only [afterOpen, hdl, hbar, if_true, hrr]
    cases cfg.serialPort with
    | none => rfl
    | some port =>
      dsimp only
      cases serialWait port env.polls with
      | confirmed n => rfl
      | exhausted => rfl
  · intro bflag
    have hrun2 := runSession_opened { cfg with reset := bflag } env k hacq
    rw [hrun, hrun2]
    simp only [afterOpen, hdl, hbar, if_true, hrr]
    rfl

/-- Environment for `cfgResetW` taking the benign disconnect path. -/
def envBenignResetW : Env :=
  { resetMcu := .ok (), opens := [.opened], dl := .libUsb "Pipe error",
    chunks := [4], recoveryReset := .ok (), polls := [], finalReset := .ok () }

/-- C7, witness: with the reset flag set and a benign disconnect, the
session succeeds with a single bus reset, identically to the flag-clear
session. -/
theorem benign_path_no_final_reset_witness :
    exitOk (runSession cfgResetW envBenignResetW).result = true ∧
    (runSession cfgResetW envBenignResetW).usbResets = 1 ∧
    runSession { cfgResetW with reset := false } envBenignResetW
      = runSession cfgResetW envBenignResetW := by
  have h := benign_path_no_final_reset cfgResetW envBenignResetW "Pipe error" 1
    rfl rfl (by decide) (by decide) rfl
  exact ⟨h.1, h.2.1, h.2.2 false⟩

/-! ### Claim C10 — the best-effort MCU pre-reset -/

/-- The recorded MCU-reset failure message of a session is exactly
`mcuMsgOf`. -/
theorem runSession_mcuMsg (cfg : Cfg) (env : Env) :
    (runSession cfg env).mcuResetFailMsg = mcuMsgOf cfg env := by
  unfold runSession
  cases hacq : acquire cfg.wait env.opens with
  | none => rfl
  | some p =>
    cases p with
    | mk q n => cases q <;> rfl

/-- The session's result, probe count and reset count do not depend on the
outcome of the best-effort `reset_mcu` call. -/
theorem runSession_resetMcu_irrel (cfg : Cfg) (env : Env) (x : Except String Unit) :
    (runSession cfg { env with resetMcu := x }).result = (runSession cfg env).result ∧
    (runSession cfg { env with resetMcu := x }).openProbes
      = (runSession cfg env).openProbes ∧
    (runSession cfg { env with resetMcu := x }).usbResets
      = (runSession cfg env).usbResets := by
  unfold runSession
  have hac : acquire cfg.wait ({ env with resetMcu := x } : Env).opens
      = acquire cfg.wait env.opens := rfl
  rw [hac]
  cases hacq : acquire cfg.wait env.opens with
  | none => exact ⟨rfl, rfl, rfl⟩
  | some p =>
    cases p with
    | mk q n => cases q <;> exact ⟨rfl, rfl, rfl⟩

/-- C10: when a serial endpoint is configured and `reset_mcu` fails, the
failure is recorded (reported) with its cause, and the session otherwise
proceeds exactly as if the reset had succeeded — same result, same open
probes, same bus resets; the failure never aborts the session. -/
theorem mcu_reset_best_effort (cfg : Cfg) (env : Env) (port e : String)
    (hs : cfg.serialPort = some port)
    (hm : env.resetMcu = .error e) :
    (runSession cfg env).mcuResetFailMsg
      = some ("Failed to reset MCU at " ++ port ++ ": " ++ e) ∧
    (runSession cfg env).result
      = (runSession cfg { env with resetMcu := .ok () }).result ∧
    (runSession cfg env).openProbes
      = (runSession cfg { env with resetMcu := .ok () }).openProbes ∧
    (runSession cfg env).usbResets
      = (runSession cfg { env with resetMcu := .ok () }).usbResets := by
  refine ⟨?_, ?_, ?_, ?_⟩
  · rw [runSession_mcuMsg]
    simp only [mcuMsgOf, hs, hm]
  · exact (runSession_resetMcu_irrel cfg env (.ok ())).1.symm
  · exact (runSession_resetMcu_irrel cfg env (.ok ())).2.1.symm
  · exact (runSession_resetMcu_irrel cfg env (.ok ())).2.2.symm

/-- Environment whose MCU pre-reset fails. -/
def envMcuFailW : Env :=
  { resetMcu := .error "port busy", opens := [.opened], dl := .ok 4,
    chunks := [4], recoveryReset := .ok (), polls := [], finalReset := .ok () }

/-- C10, witness: the theorem applied at a concrete session — the failure
is recorded and the session result matches the reset-succeeded run. -/
theorem mcu_reset_best_effort_witness :
    (runSession cfgSerialW envMcuFailW).mcuResetFailMsg
      = some "Failed to reset MCU at COM7: port busy" ∧
    (runSession cfgSerialW envMcuFailW).result
      = (runSession cfgSerialW { envMcuFailW with resetMcu := .ok () }).result := by
  have h := mcu_reset_best_effort cfgSerialW envMcuFailW "COM7" "port busy" rfl rfl
  constructor
  · rw [h.1]
    decide
  · exact h.2.1

end DfuMaple
